import Mathlib

/-
Verification of the character statistics derivation engine
(`CharacterSheet` in scripts/character_sheet.py).

The raw character document is JSON-like: fields may be absent or null.
We embed it as a Lean structure whose fields are `Option`-typed; `none`
stands for "absent or null" (the code treats both alike at every site
relevant here, via `dict.get` defaults and the falsiness of `None`).
Python's `x or 0` on an integer treats 0 and None alike, which is
modelled explicitly where the code relies on it (`acModValue`).
Python dictionaries are embedded as update functions or association
lists; `//` (floor division) is `Int.fdiv`.

Skill proficiency levels, which the code stores as the Python numbers
{0, 0.5, 1, 2}, are represented in half-units as the naturals
{0, 1, 2, 4} to avoid non-integral arithmetic; `lvl / 2` recovers the
integer level when `2 ≤ lvl`.
-/

/-- One entry of the `stats` array: `{id, value}`. The code reads both
fields with raw indexing (`s['id']`, `s['value']`), so an entry missing
either field makes resolution fail. -/
structure StatEntry where
  id : Option Int
  value : Option Int
  deriving Repr, DecidableEq

/-- One modifier record, as read by the code (`subType`, `type`,
`value`, `fixedValue`; all optional in the raw document). -/
structure Modifier where
  subType : Option String
  ty : Option String
  value : Option Int
  fixedValue : Option Int
  deriving Repr, DecidableEq

/-- The shape of `classes[i].definition` — only `name` is read. -/
structure ClassDef where
  name : Option String
  deriving Repr, DecidableEq

/-- One entry of the `classes` array. -/
structure CharClass where
  level : Option Int
  definition : Option ClassDef
  deriving Repr, DecidableEq

/-- The shape of `inventory[i].definition` — the fields read by the AC computation. -/
structure ItemDef where
  armorTypeId : Option Int
  armorClass : Option Int
  grantedModifiers : Option (List Modifier)
  deriving Repr, DecidableEq

/-- One inventory item. -/
structure Item where
  equipped : Option Bool
  definition : Option ItemDef
  deriving Repr, DecidableEq

/-- The shape of `race.weightSpeeds.normal` — only `walk` is read. -/
structure NormalSpeeds where
  walk : Option Int
  deriving Repr, DecidableEq

/-- The shape of `race.weightSpeeds`. -/
structure WeightSpeeds where
  normal : Option NormalSpeeds
  deriving Repr, DecidableEq

/-- The shape of `race` — only the speed path is read by the core. -/
structure Race where
  weightSpeeds : Option WeightSpeeds
  deriving Repr, DecidableEq

/-- The raw character document (the fields the core reads). `modifiers`
is a mapping from category name to a list of modifier records; Python
dict iteration order is insertion order, so it is embedded as an
association list iterated in order. -/
structure Document where
  stats : Option (List StatEntry)
  modifiers : Option (List (String × List Modifier))
  classes : Option (List CharClass)
  inventory : Option (List Item)
  baseHitPoints : Option Int
  bonusHitPoints : Option Int
  removedHitPoints : Option Int
  race : Option Race
  deriving Repr, DecidableEq

/-- Table `STAT_ID_MAP` from the source. -/
def STAT_ID_MAP : List (String × Int) :=
  [("strength-score", 1), ("dexterity-score", 2), ("constitution-score", 3),
   ("intelligence-score", 4), ("wisdom-score", 5), ("charisma-score", 6)]

/-- Inverse of `STAT_NAMES` from the source; the code keys the abilities
dict by the six names STR..CHA, which we embed as a name-indexed
function, translating a name back to its stat id through this table. -/
def NAME_TO_ID : List (String × Int) :=
  [("STR", 1), ("DEX", 2), ("CON", 3), ("INT", 4), ("WIS", 5), ("CHA", 6)]

/-- Table `SAVE_MAP` from the source. -/
def SAVE_MAP : List (String × String) :=
  [("strength-saving-throws", "STR"), ("dexterity-saving-throws", "DEX"),
   ("constitution-saving-throws", "CON"), ("intelligence-saving-throws", "INT"),
   ("wisdom-saving-throws", "WIS"), ("charisma-saving-throws", "CHA")]

/-- Table `SKILLS` from the source: skill key → governing ability name. -/
def SKILLS : List (String × String) :=
  [("acrobatics", "DEX"), ("animal-handling", "WIS"), ("arcana", "INT"),
   ("athletics", "STR"), ("deception", "CHA"), ("history", "INT"),
   ("insight", "WIS"), ("intimidation", "CHA"), ("investigation", "INT"),
   ("medicine", "WIS"), ("nature", "INT"), ("perception", "WIS"),
   ("performance", "CHA"), ("persuasion", "CHA"), ("religion", "INT"),
   ("sleight-of-hand", "DEX"), ("stealth", "DEX"), ("survival", "WIS")]

/-- Table `SPELLCASTING_ABILITIES` from the source: class name → ability name. -/
def SPELLCASTING_ABILITIES : List (String × String) :=
  [("Wizard", "INT"), ("Artificer", "INT"),
   ("Cleric", "WIS"), ("Druid", "WIS"), ("Ranger", "WIS"),
   ("Bard", "CHA"), ("Paladin", "CHA"), ("Sorcerer", "CHA"), ("Warlock", "CHA")]

/-- All modifier records across all categories, in iteration order:
`for category, mods in data.get('modifiers', {}).items(): for mod in mods`. -/
def allMods (doc : Document) : List Modifier :=
  (doc.modifiers.getD []).flatMap (fun p => p.2)

/-- The dict comprehension `base_stats` of `_calculate_ability_scores`.
The dict is embedded as an update function `Int → Option Int`;
raw indexing on a missing key is a failure (`none` result), matching the
KeyError the comprehension raises when an entry lacks `id` or `value`. -/
def buildBaseStats : List StatEntry → (Int → Option Int) → Option (Int → Option Int)
  | [], m => some m
  | s :: rest, m =>
    match s.id, s.value with
    | some i, some v => buildBaseStats rest (fun k => if k = i then some v else m k)
    | _, _ => none

/-- One iteration of the `stat_bonuses` accumulation loop of
`_calculate_ability_scores`: when the modifier's subType is a key of
`STAT_ID_MAP` and its type is "bonus", the bonus dict entry for the
mapped stat id is increased by `mod.get('value', 0) or 0`. -/
def abilityBonusStep (f : Int → Int) (m : Modifier) : Int → Int :=
  match List.lookup (m.subType.getD "") STAT_ID_MAP with
  | some i =>
    if m.ty = some "bonus" then
      fun k => if k = i then f k + m.value.getD 0 else f k
    else f
  | none => f

/-- The `stat_bonuses` accumulation loop, embedded as a fold building
the bonus dict (initialised to 0 for every key, as in the source). -/
def abilityBonuses (doc : Document) : Int → Int :=
  (allMods doc).foldl abilityBonusStep (fun _ => 0)

/-- One resolved ability entry: `{base, bonus, total, mod}`. -/
structure AbilityEntry where
  base : Int
  bonus : Int
  total : Int
  mod : Int
  deriving Repr, DecidableEq

/-- The per-ability body of `_calculate_ability_scores`:
base defaults to 10, `total = base + bonus`, `modifier = (total-10)//2`
(Python floor division, `Int.fdiv`). -/
def mkAbilityEntry (doc : Document) (bs : Int → Option Int) (sid : Int) : AbilityEntry :=
  let base := (bs sid).getD 10
  let bonus := abilityBonuses doc sid
  let total := base + bonus
  { base := base, bonus := bonus, total := total, mod := Int.fdiv (total - 10) 2 }

/-- The abilities dict, keyed by ability name (STR..CHA); names outside
the six are never looked up by the code. -/
def abilitiesOf (doc : Document) (bs : Int → Option Int) : String → AbilityEntry :=
  fun name => mkAbilityEntry doc bs ((List.lookup name NAME_TO_ID).getD 1)

/-- The sum `total_level` over `c.get('level', 0)` of all classes. -/
def totalLevelOf (doc : Document) : Int :=
  (doc.classes.getD []).foldl (fun a c => a + c.level.getD 0) 0

/-- The bonus `proficiency_bonus = 2 + (total_level - 1) // 4` (floor division). -/
def profBonusOf (doc : Document) : Int :=
  2 + Int.fdiv (totalLevelOf doc - 1) 4

/-- One saving-throw entry. -/
structure SaveEntry where
  value : Int
  proficient : Bool
  deriving Repr, DecidableEq

/-- The proficient-set test of `_calculate_saving_throws`. -/
def saveProficient (doc : Document) (name : String) : Bool :=
  (allMods doc).any (fun m =>
    decide (List.lookup (m.subType.getD "") SAVE_MAP = some name ∧ m.ty = some "proficiency"))

/-- The body of `_calculate_saving_throws`, per ability name. -/
def savesOf (doc : Document) (bs : Int → Option Int) : String → SaveEntry :=
  fun name =>
    let v := (abilitiesOf doc bs name).mod
    if saveProficient doc name then
      { value := v + profBonusOf doc, proficient := true }
    else
      { value := v, proficient := false }

/-- The per-modifier update of the `skill_profs` accumulation loop,
projected onto one skill key `sk` (the loop guard `subtype in
skill_profs` is equivalent to `subtype = sk` for the projection, since
`sk` ranges over the fixed `SKILLS` keys). Levels are in half-units:
proficiency = 2, expertise = 4 (a direct assignment in the source, not a
max), half-proficiency = 1. -/
def skillStep (sk : String) (cur : Nat) (m : Modifier) : Nat :=
  if m.subType.getD "" = sk then
    if m.ty.getD "" = "proficiency" then max cur 2
    else if m.ty.getD "" = "expertise" then 4
    else if m.ty.getD "" = "half-proficiency" then max cur 1
    else cur
  else cur

/-- The accumulated proficiency level (half-units) for one skill. -/
def skillLevelOf (doc : Document) (sk : String) : Nat :=
  (allMods doc).foldl (skillStep sk) 0

/-- The bonus computation of `_calculate_skills`:
`base_mod + int(pb * level)` when level ≥ 1 (level is then the integer
1 or 2, so the product is exact), `base_mod + pb // 2` (floor) when
level = 0.5, else `base_mod`. Levels are in half-units. -/
def skillValue (pb baseMod : Int) (lvl : Nat) : Int :=
  if 2 ≤ lvl then baseMod + pb * ((lvl / 2 : Nat) : Int)
  else if lvl = 1 then baseMod + Int.fdiv pb 2
  else baseMod

/-- One resolved skill entry (`proficiency` in half-units). -/
structure SkillEntry where
  ability : String
  value : Int
  proficiency : Nat
  deriving Repr, DecidableEq

/-- The body of `_calculate_skills`: one entry per skill of the fixed table. -/
def skillsOf (doc : Document) (bs : Int → Option Int) : List (String × SkillEntry) :=
  SKILLS.map (fun p =>
    (p.1,
      { ability := p.2,
        value := skillValue (profBonusOf doc) ((abilitiesOf doc bs p.2).mod) (skillLevelOf doc p.1),
        proficiency := skillLevelOf doc p.1 }))

/-- The chain `mod.get('value', 0) or mod.get('fixedValue', 0) or 0`: a zero, null
or absent `value` falls through to `fixedValue`, then to 0 (Python `or`
treats 0 and None as falsy). -/
def acModValue (m : Modifier) : Int :=
  let v := m.value.getD 0
  let f := m.fixedValue.getD 0
  if v ≠ 0 then v else if f ≠ 0 then f else 0

/-- The granted-modifier AC bonus loop shared by the shield and body
armor branches of `_calculate_ac`. -/
def grantedACBonus (mods : List Modifier) : Int :=
  mods.foldl
    (fun a m =>
      if m.subType = some "armor-class" ∧ m.ty = some "bonus" then a + acModValue m else a)
    0

/-- The running state of the `_calculate_ac` inventory loop. -/
structure ACState where
  baseAC : Int
  dexCap : Option Int
  shieldBonus : Int
  otherBonuses : Int
  deriving Repr, DecidableEq

/-- The default item definition used by `item.get('definition', {})`. -/
def emptyItemDef : ItemDef := { armorTypeId := none, armorClass := none, grantedModifiers := none }

/-- One iteration of the `_calculate_ac` inventory loop. Unequipped
items are skipped. A shield (`armorTypeId == 4`) ASSIGNS
`shield_bonus = item_ac` before adding its granted modifiers, so a
later shield discards an earlier one. Body armor (1/2/3) assigns
`base_ac`; the DEX cap is set to 2 for medium and 0 for heavy, but for
light armor it is left at its previous value (the source has no
else-branch resetting it). -/
def processItem (st : ACState) (it : Item) : ACState :=
  if it.equipped.getD false = true then
    let d := it.definition.getD emptyItemDef
    if d.armorTypeId = some 4 then
      { st with shieldBonus := d.armorClass.getD 0 + grantedACBonus (d.grantedModifiers.getD []) }
    else if d.armorTypeId = some 1 ∨ d.armorTypeId = some 2 ∨ d.armorTypeId = some 3 then
      { st with
        baseAC := d.armorClass.getD 0,
        dexCap :=
          if d.armorTypeId = some 2 then some 2
          else if d.armorTypeId = some 3 then some 0
          else st.dexCap,
        otherBonuses := st.otherBonuses + grantedACBonus (d.grantedModifiers.getD []) }
    else st
  else st

/-- The inventory loop of `_calculate_ac`, from the initial state
`base_ac = 10, dex_cap = None, shield_bonus = 0, other_bonuses = 0`. -/
def acFoldState (inv : List Item) : ACState :=
  inv.foldl processItem { baseAC := 10, dexCap := none, shieldBonus := 0, otherBonuses := 0 }

/-- The final loop of `_calculate_ac`: armor-class bonus modifiers from
every category except "item", added into `other_bonuses`
(`mod.get('value', 0) or 0`). -/
def nonItemACBonus (doc : Document) (init : Int) : Int :=
  (doc.modifiers.getD []).foldl
    (fun acc p =>
      if p.1 = "item" then acc
      else p.2.foldl
        (fun a m =>
          if m.subType = some "armor-class" ∧ m.ty = some "bonus" then a + m.value.getD 0 else a)
        acc)
    init

/-- The body of `_calculate_ac`. -/
def calculateAC (doc : Document) (dexMod : Int) : Int :=
  let st := acFoldState (doc.inventory.getD [])
  let effectiveDex := match st.dexCap with | none => dexMod | some c => min dexMod c
  st.baseAC + effectiveDex + st.shieldBonus + nonItemACBonus doc st.otherBonuses

/-- The total `max_hp = base_hp + bonus_hp + con_mod * total_level`
(`bonusHitPoints` null or absent → 0). -/
def maxHPOf (doc : Document) (bs : Int → Option Int) : Int :=
  doc.baseHitPoints.getD 0 + doc.bonusHitPoints.getD 0 +
    (abilitiesOf doc bs "CON").mod * totalLevelOf doc

/-- The value `current_hp = max_hp - (removedHitPoints or 0)` — no clamping. -/
def currentHPOf (doc : Document) (bs : Int → Option Int) : Int :=
  maxHPOf doc bs - doc.removedHitPoints.getD 0

/-- The speed chain `race.weightSpeeds.normal.walk` with default 30 at
every step (the try/except in the source only guards shape mismatches
that cannot arise in this typed embedding). -/
def speedOf (doc : Document) : Int :=
  ((((doc.race.getD { weightSpeeds := none }).weightSpeeds.getD
      { normal := none }).normal.getD { walk := none }).walk).getD 30

/-- The class-name read `c.get('definition', {}).get('name', '')`. -/
def classNameOf (c : CharClass) : String :=
  ((c.definition.getD { name := none }).name).getD ""

/-- The `_calculate_spellcasting` scan: first class in document order
whose name is in the table wins (the loop breaks on the first hit). -/
def findCaster : List CharClass → Option String
  | [] => none
  | c :: rest =>
    match List.lookup (classNameOf c) SPELLCASTING_ABILITIES with
    | some a => some a
    | none => findCaster rest

/-- The fully derived statistics object. -/
structure Derived where
  abilities : String → AbilityEntry
  totalLevel : Int
  proficiencyBonus : Int
  saves : String → SaveEntry
  skills : List (String × SkillEntry)
  maxHP : Int
  currentHP : Int
  ac : Int
  speed : Int
  initiative : Int
  spellAbility : Option String
  spellAttack : Option Int
  spellDC : Option Int

/-- Assembles the derived statistics once the base-stats dict has been
built (the only failing step). -/
def mkDerived (doc : Document) (bs : Int → Option Int) : Derived :=
  { abilities := abilitiesOf doc bs
    totalLevel := totalLevelOf doc
    proficiencyBonus := profBonusOf doc
    saves := savesOf doc bs
    skills := skillsOf doc bs
    maxHP := maxHPOf doc bs
    currentHP := currentHPOf doc bs
    ac := calculateAC doc ((abilitiesOf doc bs "DEX").mod)
    speed := speedOf doc
    initiative := (abilitiesOf doc bs "DEX").mod
    spellAbility := findCaster (doc.classes.getD [])
    spellAttack :=
      match findCaster (doc.classes.getD []) with
      | some a => some ((abilitiesOf doc bs a).mod + profBonusOf doc)
      | none => none
    spellDC :=
      match findCaster (doc.classes.getD []) with
      | some a => some (8 + (abilitiesOf doc bs a).mod + profBonusOf doc)
      | none => none }

/-- The whole derivation (`CharacterSheet._calculate_all`): `none` when
the base-stats dict comprehension fails (an entry of `stats` missing
`id` or `value`), otherwise the derived statistics. -/
def resolve (doc : Document) : Option Derived :=
  (buildBaseStats (doc.stats.getD []) (fun _ => none)).map (mkDerived doc)

/-
Specification-side definitions. These restate, in the words of the
spec/claims, what each derived quantity should be; the theorems below
relate them to the translated code.
-/

/-- Spec reading of the base ability score: the value of the first
entry of `stats` carrying this id (10 when no entry does). -/
def specFirstStat (l : List StatEntry) (sid : Int) : Option Int :=
  l.findSome? (fun s => if s.id = some sid then s.value else none)

/-- The value of the last entry of `stats` carrying this id — what the
dict comprehension actually keeps when ids repeat. -/
def specLastStat (l : List StatEntry) (sid : Int) : Option Int :=
  l.reverse.findSome? (fun s => if s.id = some sid then s.value else none)

/-- Spec reading of the ability bonus: the sum, over every modifier in
every category whose subType maps to this ability's score key and whose
type is "bonus", of its value (null/missing as 0). -/
def specAbilityBonus : List Modifier → Int → Int
  | [], _ => 0
  | m :: rest, sid =>
    (if List.lookup (m.subType.getD "") STAT_ID_MAP = some sid ∧ m.ty = some "bonus"
     then m.value.getD 0 else 0) + specAbilityBonus rest sid

/-- The proficiency weight (half-units) a single modifier contributes to
a skill: 2 for "proficiency", 4 for "expertise", 1 for
"half-proficiency", 0 otherwise or when the subType does not match. -/
def skillWeight (sk : String) (m : Modifier) : Nat :=
  if m.subType.getD "" = sk then
    if m.ty.getD "" = "proficiency" then 2
    else if m.ty.getD "" = "expertise" then 4
    else if m.ty.getD "" = "half-proficiency" then 1
    else 0
  else 0

/-- Spec reading of the skill proficiency level: the maximum weight over
all modifiers (0 when none match). -/
def specSkillLevel : List Modifier → String → Nat
  | [], _ => 0
  | m :: rest, sk => max (skillWeight sk m) (specSkillLevel rest sk)

/-- The definition of an equipped item (unequipped items never count). -/
def equippedDef (it : Item) : Option ItemDef :=
  if it.equipped.getD false = true then some (it.definition.getD emptyItemDef) else none

/-- The definition of an equipped body-armor item (armorTypeId 1/2/3). -/
def bodyArmorDef (it : Item) : Option ItemDef :=
  match equippedDef it with
  | some d =>
    if d.armorTypeId = some 1 ∨ d.armorTypeId = some 2 ∨ d.armorTypeId = some 3 then some d
    else none
  | none => none

/-- The DEX cap contributed by an equipped item: 2 for medium armor, 0
for heavy armor, nothing otherwise (light armor contributes nothing,
leaving any earlier cap in force). -/
def capOfItem (it : Item) : Option Int :=
  match equippedDef it with
  | some d =>
    if d.armorTypeId = some 2 then some 2
    else if d.armorTypeId = some 3 then some 0
    else none
  | none => none

/-- The definition of an equipped shield (armorTypeId 4). -/
def shieldDef (it : Item) : Option ItemDef :=
  match equippedDef it with
  | some d => if d.armorTypeId = some 4 then some d else none
  | none => none

/-- A shield's full contribution: its base armorClass plus its granted
armor-class bonus modifiers. -/
def shieldValue (d : ItemDef) : Int :=
  d.armorClass.getD 0 + grantedACBonus (d.grantedModifiers.getD [])

/-- Spec reading of the armor base AC: the armorClass of the LAST
equipped body-armor item (10 when there is none). -/
def specBaseAC (inv : List Item) : Int :=
  match inv.reverse.findSome? bodyArmorDef with
  | some d => d.armorClass.getD 0
  | none => 10

/-- The DEX cap actually in force after the inventory loop: the cap of
the last equipped medium-or-heavy item, unset when there is none
(light armor never clears an earlier cap). -/
def specDexCap (inv : List Item) : Option Int :=
  inv.reverse.findSome? capOfItem

/-- The shield bonus actually in force after the inventory loop: the
full contribution of the LAST equipped shield only (0 when none). -/
def specShieldBonus (inv : List Item) : Int :=
  match inv.reverse.findSome? shieldDef with
  | some d => shieldValue d
  | none => 0

/-- The granted armor-class bonuses accumulated from ALL equipped
body-armor items (these add up, unlike base AC and shield bonus). -/
def specArmorGranted : List Item → Int
  | [] => 0
  | it :: rest =>
    (match bodyArmorDef it with
     | some d => grantedACBonus (d.grantedModifiers.getD [])
     | none => 0) + specArmorGranted rest

/-
Helper lemmas relating the translated folds to the spec-side readings.
-/

theorem foldl_abilityBonusStep (l : List Modifier) (f : Int → Int) (k : Int) :
    (l.foldl abilityBonusStep f) k = f k + specAbilityBonus l k := by
  induction l generalizing f with
  | nil => simp [specAbilityBonus]
  | cons m rest ih =>
    rw [List.foldl_cons, ih]
    have hstep : abilityBonusStep f m k =
        f k + (if List.lookup (m.subType.getD "") STAT_ID_MAP = some k ∧ m.ty = some "bonus"
               then m.value.getD 0 else 0) := by
      cases h : List.lookup (m.subType.getD "") STAT_ID_MAP with
      | none => simp [abilityBonusStep, h]
      | some i =>
        by_cases hty : m.ty = some "bonus"
        · by_cases hk : k = i
          · subst hk; simp [abilityBonusStep, h, hty]
          · have : ¬ (some i = some k) := by simpa using fun e => hk e.symm
            simp [abilityBonusStep, h, hty, hk, this]
        · simp [abilityBonusStep, h, hty]
    rw [hstep, specAbilityBonus]
    omega

theorem abilityBonuses_eq_spec (doc : Document) (k : Int) :
    abilityBonuses doc k = specAbilityBonus (allMods doc) k := by
  rw [abilityBonuses, foldl_abilityBonusStep]
  exact zero_add _

theorem buildBaseStats_lookup (l : List StatEntry) (m f : Int → Option Int)
    (h : buildBaseStats l m = some f) (sid : Int) :
    f sid = (specLastStat l sid).or (m sid) := by
  induction l generalizing m with
  | nil =>
    rw [buildBaseStats] at h
    cases h
    simp [specLastStat]
  | cons s rest ih =>
    rw [buildBaseStats] at h
    cases hid : s.id with
    | none => rw [hid] at h; exact absurd h (by simp)
    | some i =>
      cases hval : s.value with
      | none => rw [hid, hval] at h; exact absurd h (by simp)
      | some v =>
        rw [hid, hval] at h
        have step := ih _ h
        rw [step]
        simp only [specLastStat, List.reverse_cons, List.findSome?_append]
        cases hfs : List.findSome? (fun t => if t.id = some sid then t.value else none)
            rest.reverse with
        | some w => simp [hfs]
        | none =>
          simp only [hfs, Option.none_or]
          by_cases hk : sid = i
          · subst hk
            simp [List.findSome?_cons, hid, hval]
          · have hne : ¬ (s.id = some sid) := by
              rw [hid]; simpa using fun e => hk e.symm
            simp [List.findSome?_cons, hne, hk]

theorem findSome?_eq_none_of_all {α β : Type} (l : List α) (f : α → Option β)
    (h : ∀ x ∈ l, f x = none) : l.findSome? f = none := by
  induction l with
  | nil => simp
  | cons a rest ih =>
    rw [List.findSome?_cons, h a (by simp)]
    exact ih (fun x hx => h x (by simp [hx]))

theorem specLastStat_eq_first (l : List StatEntry) (sid : Int)
    (hnd : (l.map StatEntry.id).Nodup) :
    specLastStat l sid = specFirstStat l sid := by
  induction l with
  | nil => rfl
  | cons s rest ih =>
    rw [List.map_cons, List.nodup_cons] at hnd
    have hrev : (s :: rest).reverse = rest.reverse ++ [s] := by simp
    rw [specLastStat, hrev, List.findSome?_append, specFirstStat, List.findSome?_cons]
    cases hfs : (if s.id = some sid then s.value else none) with
    | none =>
      simp only [hfs]
      rw [show rest.reverse.findSome? (fun t => if t.id = some sid then t.value else none)
            = specLastStat rest sid from rfl, ih hnd.2, specFirstStat]
      simp [List.findSome?, hfs]
    | some v =>
      have hid : s.id = some sid := by
        by_contra hc
        rw [if_neg hc] at hfs
        exact Option.noConfusion hfs
      have hnone : ∀ t ∈ rest, (if StatEntry.id t = some sid then t.value else none) = none := by
        intro t ht
        have : t.id ≠ some sid := by
          intro he
          exact hnd.1 (by
            rw [← hid] at he
            exact (List.mem_map).mpr ⟨t, ht, he.symm ▸ rfl⟩)
        simp [this]
      have h1 : rest.reverse.findSome? (fun t => if t.id = some sid then t.value else none) = none :=
        findSome?_eq_none_of_all _ _ (fun x hx => hnone x (by simpa using hx))
      simp [h1, hfs]

theorem skillWeight_le_four (sk : String) (m : Modifier) : skillWeight sk m ≤ 4 := by
  rw [skillWeight]
  split_ifs <;> omega

theorem skillStep_eq_max (sk : String) (cur : Nat) (m : Modifier) (h : cur ≤ 4) :
    skillStep sk cur m = max cur (skillWeight sk m) := by
  rw [skillStep, skillWeight]
  split_ifs <;> omega

theorem foldl_skillStep (l : List Modifier) (sk : String) (cur : Nat) (h : cur ≤ 4) :
    l.foldl (skillStep sk) cur = max cur (specSkillLevel l sk) := by
  induction l generalizing cur with
  | nil => rw [List.foldl_nil, specSkillLevel]; omega
  | cons m rest ih =>
    rw [List.foldl_cons, skillStep_eq_max sk cur m h,
        ih _ (Nat.max_le.mpr ⟨h, skillWeight_le_four sk m⟩), specSkillLevel]
    omega

theorem skillLevelOf_eq_spec (doc : Document) (sk : String) :
    skillLevelOf doc sk = specSkillLevel (allMods doc) sk := by
  rw [skillLevelOf, foldl_skillStep _ _ _ (by omega)]
  omega

theorem specSkillLevel_le_four (l : List Modifier) (sk : String) :
    specSkillLevel l sk ≤ 4 := by
  induction l with
  | nil => rw [specSkillLevel]; omega
  | cons m rest ih =>
    rw [specSkillLevel]
    exact Nat.max_le.mpr ⟨skillWeight_le_four sk m, ih⟩

theorem processItem_baseAC (st : ACState) (it : Item) :
    (processItem st it).baseAC =
      match bodyArmorDef it with
      | some d => d.armorClass.getD 0
      | none => st.baseAC := by
  rw [processItem, bodyArmorDef, equippedDef]
  by_cases he : it.equipped.getD false = true
  · simp only [he, if_pos rfl]
    by_cases h4 : (it.definition.getD emptyItemDef).armorTypeId = some 4
    · have hb : ¬ ((it.definition.getD emptyItemDef).armorTypeId = some 1 ∨
          (it.definition.getD emptyItemDef).armorTypeId = some 2 ∨
          (it.definition.getD emptyItemDef).armorTypeId = some 3) := by
        rw [h4]; simp
      simp [h4, hb]
    · by_cases hb : (it.definition.getD emptyItemDef).armorTypeId = some 1 ∨
          (it.definition.getD emptyItemDef).armorTypeId = some 2 ∨
          (it.definition.getD emptyItemDef).armorTypeId = some 3
      · simp [h4, hb]
      · simp [h4, hb]
  · simp [he]

theorem processItem_dexCap (st : ACState) (it : Item) :
    (processItem st it).dexCap =
      match capOfItem it with
      | some c => some c
      | none => st.dexCap := by
  rw [processItem, capOfItem, equippedDef]
  by_cases he : it.equipped.getD false = true
  · simp only [he, if_pos rfl]
    by_cases h4 : (it.definition.getD emptyItemDef).armorTypeId = some 4
    · have h2 : ¬ (it.definition.getD emptyItemDef).armorTypeId = some 2 := by rw [h4]; simp
      have h3 : ¬ (it.definition.getD emptyItemDef).armorTypeId = some 3 := by rw [h4]; simp
      simp [h4, h2, h3]
    · by_cases h2 : (it.definition.getD emptyItemDef).armorTypeId = some 2
      · have hb : (it.definition.getD emptyItemDef).armorTypeId = some 1 ∨
            (it.definition.getD emptyItemDef).armorTypeId = some 2 ∨
            (it.definition.getD emptyItemDef).armorTypeId = some 3 := Or.inr (Or.inl h2)
        simp [h4, h2, hb]
      · by_cases h3 : (it.definition.getD emptyItemDef).armorTypeId = some 3
        · have hb : (it.definition.getD emptyItemDef).armorTypeId = some 1 ∨
              (it.definition.getD emptyItemDef).armorTypeId = some 2 ∨
              (it.definition.getD emptyItemDef).armorTypeId = some 3 := Or.inr (Or.inr h3)
          simp [h4, h2, h3, hb]
        · by_cases h1 : (it.definition.getD emptyItemDef).armorTypeId = some 1
          · have hb : (it.definition.getD emptyItemDef).armorTypeId = some 1 ∨
                (it.definition.getD emptyItemDef).armorTypeId = some 2 ∨
                (it.definition.getD emptyItemDef).armorTypeId = some 3 := Or.inl h1
            simp [h4, h1, h2, h3, hb]
          · have hb : ¬ ((it.definition.getD emptyItemDef).armorTypeId = some 1 ∨
                (it.definition.getD emptyItemDef).armorTypeId = some 2 ∨
                (it.definition.getD emptyItemDef).armorTypeId = some 3) := by
              intro hc
              rcases hc with hc | hc | hc
              · exact h1 hc
              · exact h2 hc
              · exact h3 hc
            simp [h4, h1, h2, h3, hb]
  · simp [he]

theorem processItem_shieldBonus (st : ACState) (it : Item) :
    (processItem st it).shieldBonus =
      match shieldDef it with
      | some d => shieldValue d
      | none => st.shieldBonus := by
  rw [processItem, shieldDef, equippedDef]
  by_cases he : it.equipped.getD false = true
  · simp only [he, if_pos rfl]
    by_cases h4 : (it.definition.getD emptyItemDef).armorTypeId = some 4
    · simp [h4, shieldValue]
    · by_cases hb : (it.definition.getD emptyItemDef).armorTypeId = some 1 ∨
          (it.definition.getD emptyItemDef).armorTypeId = some 2 ∨
          (it.definition.getD emptyItemDef).armorTypeId = some 3
      · simp [h4, hb, shieldValue]
      · simp [h4, hb, shieldValue]
  · simp [he]

theorem processItem_otherBonuses (st : ACState) (it : Item) :
    (processItem st it).otherBonuses =
      st.otherBonuses +
        (match bodyArmorDef it with
         | some d => grantedACBonus (d.grantedModifiers.getD [])
         | none => 0) := by
  rw [processItem, bodyArmorDef, equippedDef]
  by_cases he : it.equipped.getD false = true
  · simp only [he, if_pos rfl]
    by_cases h4 : (it.definition.getD emptyItemDef).armorTypeId = some 4
    · have hb : ¬ ((it.definition.getD emptyItemDef).armorTypeId = some 1 ∨
          (it.definition.getD emptyItemDef).armorTypeId = some 2 ∨
          (it.definition.getD emptyItemDef).armorTypeId = some 3) := by
        rw [h4]; simp
      simp [h4, hb]
    · by_cases hb : (it.definition.getD emptyItemDef).armorTypeId = some 1 ∨
          (it.definition.getD emptyItemDef).armorTypeId = some 2 ∨
          (it.definition.getD emptyItemDef).armorTypeId = some 3
      · simp [h4, hb]
      · simp [h4, hb]
  · simp [he]

theorem acFold_baseAC (l : List Item) (st : ACState) :
    (l.foldl processItem st).baseAC =
      match l.reverse.findSome? bodyArmorDef with
      | some d => d.armorClass.getD 0
      | none => st.baseAC := by
  induction l generalizing st with
  | nil => simp
  | cons it rest ih =>
    rw [List.foldl_cons, ih, List.reverse_cons, List.findSome?_append]
    cases hfs : rest.reverse.findSome? bodyArmorDef with
    | some d => simp
    | none =>
      simp only [Option.none_or]
      rw [processItem_baseAC]
      cases hb : bodyArmorDef it with
      | some d => simp [List.findSome?_cons, hb]
      | none => simp [List.findSome?_cons, hb]

theorem acFold_dexCap (l : List Item) (st : ACState) :
    (l.foldl processItem st).dexCap =
      match l.reverse.findSome? capOfItem with
      | some c => some c
      | none => st.dexCap := by
  induction l generalizing st with
  | nil => simp
  | cons it rest ih =>
    rw [List.foldl_cons, ih, List.reverse_cons, List.findSome?_append]
    cases hfs : rest.reverse.findSome? capOfItem with
    | some c => simp
    | none =>
      simp only [Option.none_or]
      rw [processItem_dexCap]
      cases hb : capOfItem it with
      | some c => simp [List.findSome?_cons, hb]
      | none => simp [List.findSome?_cons, hb]

theorem acFold_shieldBonus (l : List Item) (st : ACState) :
    (l.foldl processItem st).shieldBonus =
      match l.reverse.findSome? shieldDef with
      | some d => shieldValue d
      | none => st.shieldBonus := by
  induction l generalizing st with
  | nil => simp
  | cons it rest ih =>
    rw [List.foldl_cons, ih, List.reverse_cons, List.findSome?_append]
    cases hfs : rest.reverse.findSome? shieldDef with
    | some d => simp
    | none =>
      simp only [Option.none_or]
      rw [processItem_shieldBonus]
      cases hb : shieldDef it with
      | some d => simp [List.findSome?_cons, hb]
      | none => simp [List.findSome?_cons, hb]

theorem acFold_otherBonuses (l : List Item) (st : ACState) :
    (l.foldl processItem st).otherBonuses = st.otherBonuses + specArmorGranted l := by
  induction l generalizing st with
  | nil => rw [List.foldl_nil, specArmorGranted]; omega
  | cons it rest ih =>
    rw [List.foldl_cons, ih, processItem_otherBonuses, specArmorGranted]
    omega

theorem innerACFold_add (ms : List Modifier) (a b : Int) :
    ms.foldl
      (fun x m =>
        if m.subType = some "armor-class" ∧ m.ty = some "bonus" then x + m.value.getD 0 else x)
      (a + b) =
    a + ms.foldl
      (fun x m =>
        if m.subType = some "armor-class" ∧ m.ty = some "bonus" then x + m.value.getD 0 else x)
      b := by
  induction ms generalizing b with
  | nil => simp
  | cons m rest ih =>
    rw [List.foldl_cons, List.foldl_cons]
    by_cases hc : m.subType = some "armor-class" ∧ m.ty = some "bonus"
    · rw [if_pos hc, if_pos hc, show a + b + m.value.getD 0 = a + (b + m.value.getD 0) by ring, ih]
    · rw [if_neg hc, if_neg hc, ih]

theorem nonItemACBonus_add (doc : Document) (a b : Int) :
    nonItemACBonus doc (a + b) = a + nonItemACBonus doc b := by
  rw [nonItemACBonus, nonItemACBonus]
  generalize doc.modifiers.getD [] = ps
  induction ps generalizing b with
  | nil => simp
  | cons p rest ih =>
    rw [List.foldl_cons, List.foldl_cons]
    by_cases hp : p.1 = "item"
    · rw [if_pos hp, if_pos hp, ih]
    · rw [if_neg hp, if_neg hp, innerACFold_add, ih]

theorem findCaster_eq_findSome (l : List CharClass) :
    findCaster l = l.findSome? (fun c => List.lookup (classNameOf c) SPELLCASTING_ABILITIES) := by
  induction l with
  | nil => rfl
  | cons c rest ih =>
    rw [findCaster, List.findSome?_cons]
    cases h : List.lookup (classNameOf c) SPELLCASTING_ABILITIES with
    | some a => simp
    | none => simpa using ih

/-
Concrete documents used by counterexamples and witnesses.
-/

/-- The empty document: every top-level field absent. -/
def docEmpty : Document :=
  { stats := none, modifiers := none, classes := none, inventory := none,
    baseHitPoints := none, bonusHitPoints := none, removedHitPoints := none, race := none }

/-- A mapping-shaped document whose single stats entry lacks both
`id` and `value`. -/
def docBadStats : Document := { docEmpty with stats := some [{ id := none, value := none }] }

/-- DEX 16 (modifier +3); equipped medium armor (AC 14) followed by
equipped light armor (AC 12). -/
def docLightAfterMedium : Document :=
  { docEmpty with
    stats := some [{ id := some 2, value := some 16 }],
    inventory := some
      [{ equipped := some true,
         definition := some
           { armorTypeId := some 2, armorClass := some 14, grantedModifiers := none } },
       { equipped := some true,
         definition := some
           { armorTypeId := some 1, armorClass := some 12, grantedModifiers := none } }] }

/-- Two equipped shields, base armorClass 2 and 3. -/
def docTwoShields : Document :=
  { docEmpty with
    inventory := some
      [{ equipped := some true,
         definition := some
           { armorTypeId := some 4, armorClass := some 2, grantedModifiers := none } },
       { equipped := some true,
         definition := some
           { armorTypeId := some 4, armorClass := some 3, grantedModifiers := none } }] }

/-- CON 14, one level-5 class, 10 base hit points, 4 removed. -/
def docHP : Document :=
  { docEmpty with
    stats := some [{ id := some 3, value := some 14 }],
    classes := some [{ level := some 5, definition := some { name := some "Fighter" } }],
    baseHitPoints := some 10,
    removedHitPoints := some 4 }

/-- Document with 5 removed hit points and nothing else: current HP is negative. -/
def docRemovedOnly : Document := { docEmpty with removedHitPoints := some 5 }

/-- Stat id 1 appears twice: value 8, then value 18. -/
def docDupStr : Document :=
  { docEmpty with
    stats := some [{ id := some 1, value := some 8 }, { id := some 1, value := some 18 }] }

/-- STR 15 plus one strength-score bonus modifier of value 2. -/
def docStrBonus : Document :=
  { docEmpty with
    stats := some [{ id := some 1, value := some 15 }],
    modifiers := some
      [("race",
        [{ subType := some "strength-score", ty := some "bonus",
           value := some 2, fixedValue := none }])] }

/-- Expertise in acrobatics on a level-5 character. -/
def docExpertise : Document :=
  { docEmpty with
    classes := some [{ level := some 5, definition := none }],
    modifiers := some
      [("class",
        [{ subType := some "acrobatics", ty := some "expertise",
           value := none, fixedValue := none }])] }

/-- Fighter 5 listed before Wizard 3. -/
def docFighterWizard : Document :=
  { docEmpty with
    classes := some
      [{ level := some 5, definition := some { name := some "Fighter" } },
       { level := some 3, definition := some { name := some "Wizard" } }] }

/-- An equipped shield of base armorClass 2 whose single granted
armor-class bonus modifier has the given `value` and `fixedValue`. -/
def docShieldMod (v f : Option Int) : Document :=
  { docEmpty with
    inventory := some
      [{ equipped := some true,
         definition := some
           { armorTypeId := some 4, armorClass := some 2,
             grantedModifiers := some
               [{ subType := some "armor-class", ty := some "bonus",
                  value := v, fixedValue := f }] } }] }

/-- The base-stats dict produced for `docHP`. -/
def bsOfHP : Int → Option Int := fun k => if k = 3 then some 14 else none

/-- The base-stats dict produced for `docStrBonus`. -/
def bsOfStr : Int → Option Int := fun k => if k = 1 then some 15 else none

/-- The base-stats dict produced for `docDupStr` (the later entry
shadows the earlier one). -/
def bsOfDup : Int → Option Int :=
  fun k => if k = 1 then some 18 else if k = 1 then some 8 else none

/-- The base-stats dict produced for `docLightAfterMedium`. -/
def bsOfDex16 : Int → Option Int := fun k => if k = 2 then some 16 else none

theorem lookup_name_to_id {name : String} {sid : Int}
    (h : (name, sid) ∈ NAME_TO_ID) : List.lookup name NAME_TO_ID = some sid := by
  fin_cases h <;> rfl

/-
Claim theorems.
-/

/-- Claim C1, counterexample: for the empty document (classes list
absent, hence empty), the code yields proficiencyBonus 1, not the 2 the
claim requires — Python floor division makes 2 + (0 - 1) // 4 = 1. -/
theorem claim_C1_counterexample :
    docEmpty.classes.getD [] = [] ∧
    (resolve docEmpty).map (fun o => o.proficiencyBonus) = some 1 ∧
    (resolve docEmpty).map (fun o => o.proficiencyBonus) ≠ some 2 := by
  refine ⟨rfl, rfl, ?_⟩
  rw [show (resolve docEmpty).map (fun o => o.proficiencyBonus) = some 1 from rfl]
  decide

/-- Claim C1 (amended): totalLevel is the sum of the level fields over
all entries of classes (0 when the list is empty or absent), and
proficiencyBonus = 2 + floor((totalLevel - 1) / 4) with no lower bound:
at totalLevel = 1 this is 2, but for an empty classes list
(totalLevel = 0) it is 1, not 2. -/
theorem claim_C1_profBonus (doc : Document) (out : Derived)
    (h : resolve doc = some out) :
    out.totalLevel = (doc.classes.getD []).foldl (fun a c => a + c.level.getD 0) 0 ∧
    out.proficiencyBonus = 2 + Int.fdiv (out.totalLevel - 1) 4 ∧
    (doc.classes.getD [] = [] → out.proficiencyBonus = 1) := by
  rcases Option.map_eq_some'.mp h with ⟨bs, hbs, rfl⟩
  refine ⟨rfl, rfl, ?_⟩
  intro hcls
  show profBonusOf doc = 1
  rw [profBonusOf, totalLevelOf, hcls]
  decide

/-- Claim C1 witness: applied to the empty document. -/
theorem claim_C1_profBonus_witness :
    resolve docEmpty = some (mkDerived docEmpty (fun _ => none)) ∧
    (mkDerived docEmpty (fun _ => none)).proficiencyBonus = 1 :=
  ⟨rfl, (claim_C1_profBonus docEmpty (mkDerived docEmpty (fun _ => none)) rfl).2.2 rfl⟩

/-- Claim C4, counterexample: a document whose top level is a mapping
but whose stats entry lacks `id`/`value` makes resolution fail (the
dict comprehension indexes them raw), contradicting "never raises". -/
theorem claim_C4_counterexample : resolve docBadStats = none := rfl

/-- Claim C4 (amended): resolution never fails provided every entry of
`stats` carries both `id` and `value`; all other missing fields are
absorbed by their documented defaults. (The claim as stated is false:
`s['id']`/`s['value']` are raw indexings, not defaulted reads.) -/
theorem claim_C4_neverFails (doc : Document)
    (h : ∀ s ∈ doc.stats.getD [], s.id.isSome ∧ s.value.isSome) :
    (resolve doc).isSome := by
  rw [resolve]
  have hall : ∀ (l : List StatEntry) (m : Int → Option Int),
      (∀ s ∈ l, s.id.isSome ∧ s.value.isSome) → (buildBaseStats l m).isSome := by
    intro l
    induction l with
    | nil => intro m _; rw [buildBaseStats]; rfl
    | cons s rest ih =>
      intro m hl
      obtain ⟨h1, h2⟩ := hl s (by simp)
      rw [buildBaseStats]
      cases hid : s.id with
      | none => rw [hid] at h1; simp at h1
      | some i =>
        cases hv : s.value with
        | none => rw [hv] at h2; simp at h2
        | some v =>
          exact ih _ (fun t ht => hl t (by simp [ht]))
  cases hx : buildBaseStats (doc.stats.getD []) (fun _ => none) with
  | none =>
    have := hall (doc.stats.getD []) (fun _ => none) h
    rw [hx] at this
    simp at this
  | some bs => simp

/-- Claim C4 witness: applied to a document with well-formed stats. -/
theorem claim_C4_neverFails_witness :
    (∀ s ∈ docHP.stats.getD [], s.id.isSome ∧ s.value.isSome) ∧
    (resolve docHP).isSome :=
  ⟨by decide, claim_C4_neverFails docHP (by decide)⟩

/-- Claim C8: maxHitPoints = baseHitPoints + (bonusHitPoints or 0) +
CON modifier × totalLevel, and currentHitPoints = maxHitPoints −
(removedHitPoints or 0); currentHitPoints can be negative and is never
clamped (witnessed by a document resolving to −5). -/
theorem claim_C8_hitPoints :
    (∀ (doc : Document) (out : Derived), resolve doc = some out →
      out.maxHP = doc.baseHitPoints.getD 0 + doc.bonusHitPoints.getD 0 +
        (out.abilities "CON").mod * out.totalLevel ∧
      out.currentHP = out.maxHP - doc.removedHitPoints.getD 0) ∧
    (resolve docRemovedOnly).map (fun o => o.currentHP) = some (-5) := by
  refine ⟨?_, by decide⟩
  intro doc out h
  rcases Option.map_eq_some'.mp h with ⟨bs, hbs, rfl⟩
  exact ⟨rfl, rfl⟩

/-- Claim C8 witness: the spec's own numbers — base 10, bonus null,
CON +2, level 5, removed 4 → max 20, current 16. -/
theorem claim_C8_hitPoints_witness :
    resolve docHP = some (mkDerived docHP bsOfHP) ∧
    (mkDerived docHP bsOfHP).maxHP = 20 ∧ (mkDerived docHP bsOfHP).currentHP = 16 := by
  refine ⟨rfl, ?_, ?_⟩
  · rw [(claim_C8_hitPoints.1 docHP (mkDerived docHP bsOfHP) rfl).1]
    decide
  · rw [(claim_C8_hitPoints.1 docHP (mkDerived docHP bsOfHP) rfl).2,
        (claim_C8_hitPoints.1 docHP (mkDerived docHP bsOfHP) rfl).1]
    decide

/-- Claim C9: when `stats` contains several entries with the same id,
the base ability score kept for that id is the value of the last such
entry (the dict comprehension overwrites earlier entries). -/
theorem claim_C9_lastWins (doc : Document) (out : Derived) (name : String) (sid : Int)
    (h : resolve doc = some out) (hmem : (name, sid) ∈ NAME_TO_ID) :
    (out.abilities name).base = (specLastStat (doc.stats.getD []) sid).getD 10 := by
  rcases Option.map_eq_some'.mp h with ⟨bs, hbs, rfl⟩
  show (abilitiesOf doc bs name).base = _
  rw [abilitiesOf, lookup_name_to_id hmem]
  show (bs sid).getD 10 = _
  rw [buildBaseStats_lookup _ _ _ hbs sid]
  cases specLastStat (doc.stats.getD []) sid <;> rfl

/-- Claim C9 witness: stat id 1 listed with value 8 then 18 → base 18. -/
theorem claim_C9_lastWins_witness :
    resolve docDupStr = some (mkDerived docDupStr bsOfDup) ∧
    ((mkDerived docDupStr bsOfDup).abilities "STR").base = 18 := by
  refine ⟨rfl, ?_⟩
  rw [claim_C9_lastWins docDupStr (mkDerived docDupStr bsOfDup) "STR" 1 rfl (by decide)]
  decide

/-- Claim C5: each of the six abilities always gets an entry whose base
is the value recorded in stats for its id (10 when absent; ids assumed
distinct here — duplicates are claim C9), whose bonus is the sum of
matching score-bonus modifier values (null/missing as 0), with
total = base + bonus and modifier = floor((total − 10) / 2) rounding
toward negative infinity. -/
theorem claim_C5_abilities (doc : Document) (out : Derived) (name : String) (sid : Int)
    (h : resolve doc = some out)
    (hnd : ((doc.stats.getD []).map StatEntry.id).Nodup)
    (hmem : (name, sid) ∈ NAME_TO_ID) :
    out.abilities name =
      { base := (specFirstStat (doc.stats.getD []) sid).getD 10,
        bonus := specAbilityBonus (allMods doc) sid,
        total := (specFirstStat (doc.stats.getD []) sid).getD 10 +
          specAbilityBonus (allMods doc) sid,
        mod := Int.fdiv ((specFirstStat (doc.stats.getD []) sid).getD 10 +
          specAbilityBonus (allMods doc) sid - 10) 2 } := by
  rcases Option.map_eq_some'.mp h with ⟨bs, hbs, rfl⟩
  show abilitiesOf doc bs name = _
  rw [abilitiesOf, lookup_name_to_id hmem]
  have hb : bs sid = specFirstStat (doc.stats.getD []) sid := by
    rw [buildBaseStats_lookup _ _ _ hbs sid, specLastStat_eq_first _ _ hnd]
    cases specFirstStat (doc.stats.getD []) sid <;> rfl
  show mkAbilityEntry doc bs sid = _
  rw [mkAbilityEntry, hb, abilityBonuses_eq_spec]

/-- Claim C5 witness: STR 15 plus a +2 strength-score bonus modifier. -/
theorem claim_C5_abilities_witness :
    resolve docStrBonus = some (mkDerived docStrBonus bsOfStr) ∧
    (mkDerived docStrBonus bsOfStr).abilities "STR" =
      { base := 15, bonus := 2, total := 17, mod := 3 } := by
  refine ⟨rfl, ?_⟩
  rw [claim_C5_abilities docStrBonus (mkDerived docStrBonus bsOfStr) "STR" 1 rfl
        (by decide) (by decide)]
  decide

/-- Claim C6: each of the 18 skills gets an entry whose proficiency
level is the maximum matching-modifier weight (half-units: 2 for
proficiency, 4 for expertise, 1 for half-proficiency, 0 when none
match) and whose value is abilityModifier + proficiencyBonus × level
when level ≥ 1, abilityModifier + floor(proficiencyBonus / 2) when
level is one half, and abilityModifier alone when level is 0. -/
theorem claim_C6_skills (doc : Document) (out : Derived) (sk ab : String)
    (h : resolve doc = some out) (hmem : (sk, ab) ∈ SKILLS) :
    (sk,
      ({ ability := ab,
         value :=
           if 2 ≤ specSkillLevel (allMods doc) sk then
             (out.abilities ab).mod +
               out.proficiencyBonus * ((specSkillLevel (allMods doc) sk / 2 : Nat) : Int)
           else if specSkillLevel (allMods doc) sk = 1 then
             (out.abilities ab).mod + Int.fdiv out.proficiencyBonus 2
           else (out.abilities ab).mod,
         proficiency := specSkillLevel (allMods doc) sk } : SkillEntry)) ∈ out.skills := by
  rcases Option.map_eq_some'.mp h with ⟨bs, hbs, rfl⟩
  have hmem2 := List.mem_map_of_mem
    (f := fun p : String × String =>
      (p.1,
        ({ ability := p.2,
           value := skillValue (profBonusOf doc) ((abilitiesOf doc bs p.2).mod)
             (skillLevelOf doc p.1),
           proficiency := skillLevelOf doc p.1 } : SkillEntry)))
    hmem
  dsimp only at hmem2
  rw [skillLevelOf_eq_spec, skillValue] at hmem2
  exact hmem2

/-- Claim C6 witness: expertise in acrobatics at proficiency bonus 3 and
DEX modifier 0 → value 6, level 2 (4 half-units). -/
theorem claim_C6_skills_witness :
    resolve docExpertise = some (mkDerived docExpertise (fun _ => none)) ∧
    ("acrobatics", ({ ability := "DEX", value := 6, proficiency := 4 } : SkillEntry)) ∈
      (mkDerived docExpertise (fun _ => none)).skills := by
  refine ⟨rfl, ?_⟩
  have h := claim_C6_skills docExpertise (mkDerived docExpertise (fun _ => none))
    "acrobatics" "DEX" rfl (by decide)
  have he : ({ ability := "DEX", value := 6, proficiency := 4 } : SkillEntry) =
      { ability := "DEX",
        value :=
          if 2 ≤ specSkillLevel (allMods docExpertise) "acrobatics" then
            ((mkDerived docExpertise (fun _ => none)).abilities "DEX").mod +
              (mkDerived docExpertise (fun _ => none)).proficiencyBonus *
                ((specSkillLevel (allMods docExpertise) "acrobatics" / 2 : Nat) : Int)
          else if specSkillLevel (allMods docExpertise) "acrobatics" = 1 then
            ((mkDerived docExpertise (fun _ => none)).abilities "DEX").mod +
              Int.fdiv (mkDerived docExpertise (fun _ => none)).proficiencyBonus 2
          else ((mkDerived docExpertise (fun _ => none)).abilities "DEX").mod,
        proficiency := specSkillLevel (allMods docExpertise) "acrobatics" } := by
    decide
  rw [he]
  exact h

/-- Claim C7: the first class in document order whose name is in the
spellcasting table sets spellcastingAbility; with no match all three
fields are absent; when present, attack = ability modifier +
proficiency bonus and DC = 8 + ability modifier + proficiency bonus,
and attack/DC are present exactly when the ability is. -/
theorem claim_C7_spellcasting (doc : Document) (out : Derived)
    (h : resolve doc = some out) :
    out.spellAbility = (doc.classes.getD []).findSome?
        (fun c => List.lookup (classNameOf c) SPELLCASTING_ABILITIES) ∧
    (out.spellAttack.isSome ↔ out.spellAbility.isSome) ∧
    (out.spellDC.isSome ↔ out.spellAbility.isSome) ∧
    (∀ a, out.spellAbility = some a →
      out.spellAttack = some ((out.abilities a).mod + out.proficiencyBonus) ∧
      out.spellDC = some (8 + (out.abilities a).mod + out.proficiencyBonus)) := by
  rcases Option.map_eq_some'.mp h with ⟨bs, hbs, rfl⟩
  have hab : (mkDerived doc bs).spellAbility = findCaster (doc.classes.getD []) := rfl
  have hat : (mkDerived doc bs).spellAttack =
      match findCaster (doc.classes.getD []) with
      | some a => some ((abilitiesOf doc bs a).mod + profBonusOf doc)
      | none => none := rfl
  have hdc : (mkDerived doc bs).spellDC =
      match findCaster (doc.classes.getD []) with
      | some a => some (8 + (abilitiesOf doc bs a).mod + profBonusOf doc)
      | none => none := rfl
  refine ⟨findCaster_eq_findSome _, ?_, ?_, ?_⟩
  · rw [hat, hab]
    cases findCaster (doc.classes.getD []) <;> simp
  · rw [hdc, hab]
    cases findCaster (doc.classes.getD []) <;> simp
  · intro a ha
    rw [hab] at ha
    rw [hat, hdc, ha]
    exact ⟨rfl, rfl⟩

/-- Claim C7 witness: Fighter 5 then Wizard 3 → INT spellcasting with
attack +3 and DC 11 at proficiency bonus 3. -/
theorem claim_C7_spellcasting_witness :
    resolve docFighterWizard = some (mkDerived docFighterWizard (fun _ => none)) ∧
    (mkDerived docFighterWizard (fun _ => none)).spellAbility = some "INT" ∧
    (mkDerived docFighterWizard (fun _ => none)).spellAttack = some 3 ∧
    (mkDerived docFighterWizard (fun _ => none)).spellDC = some 11 := by
  have h := (claim_C7_spellcasting docFighterWizard
    (mkDerived docFighterWizard (fun _ => none)) rfl).2.2.2 "INT" rfl
  refine ⟨rfl, rfl, ?_, ?_⟩
  · rw [h.1]; decide
  · rw [h.2]; decide

theorem calculateAC_spec (doc : Document) (dex : Int) :
    calculateAC doc dex =
      specBaseAC (doc.inventory.getD []) +
        (match specDexCap (doc.inventory.getD []) with
         | none => dex
         | some c => min dex c) +
        specShieldBonus (doc.inventory.getD []) +
        (specArmorGranted (doc.inventory.getD []) + nonItemACBonus doc 0) := by
  have h2 := nonItemACBonus_add doc (specArmorGranted (doc.inventory.getD [])) 0
  rw [add_zero] at h2
  rw [calculateAC]
  rw [acFoldState, acFold_baseAC, acFold_dexCap, acFold_shieldBonus, acFold_otherBonuses,
      specBaseAC, specDexCap, specShieldBonus]
  dsimp only
  rw [zero_add, h2]
  cases (doc.inventory.getD []).reverse.findSome? capOfItem <;> rfl

/-- Claim C2, counterexample: equipped medium armor (AC 14) followed by
equipped light armor (AC 12) with DEX modifier +3. The claim predicts
an unset cap and AC 12 + 3 = 15; the code keeps the medium armor's cap
of 2 and yields 12 + 2 = 14. -/
theorem claim_C2_counterexample :
    (resolve docLightAfterMedium).map (fun o => (o.abilities "DEX").mod) = some 3 ∧
    (resolve docLightAfterMedium).map (fun o => o.ac) = some 14 ∧
    (resolve docLightAfterMedium).map (fun o => o.ac) ≠ some 15 := by
  refine ⟨rfl, rfl, ?_⟩
  rw [show (resolve docLightAfterMedium).map (fun o => o.ac) = some 14 from rfl]
  decide

/-- Claim C2 (amended): equipped body-armor items are processed in
inventory order and the last one wins for baseAC, but the DEX cap is
only assigned by medium (2) and heavy (0) armor; light armor leaves the
previous cap in place, so the cap in force is that of the last equipped
medium-or-heavy item (unset only when none is equipped), and AC =
baseAC + capped DEX + shield bonus + (armor-granted + non-item
modifier) bonuses. -/
theorem claim_C2_bodyArmor (doc : Document) (out : Derived)
    (h : resolve doc = some out) :
    out.ac =
      specBaseAC (doc.inventory.getD []) +
        (match specDexCap (doc.inventory.getD []) with
         | none => (out.abilities "DEX").mod
         | some c => min ((out.abilities "DEX").mod) c) +
        specShieldBonus (doc.inventory.getD []) +
        (specArmorGranted (doc.inventory.getD []) + nonItemACBonus doc 0) := by
  rcases Option.map_eq_some'.mp h with ⟨bs, hbs, rfl⟩
  exact calculateAC_spec doc ((abilitiesOf doc bs "DEX").mod)

/-- Claim C2 witness: applied to the medium-then-light inventory; the
cap in force is 2 and the resulting AC is 14. -/
theorem claim_C2_bodyArmor_witness :
    resolve docLightAfterMedium = some (mkDerived docLightAfterMedium bsOfDex16) ∧
    specDexCap (docLightAfterMedium.inventory.getD []) = some 2 ∧
    (mkDerived docLightAfterMedium bsOfDex16).ac = 14 := by
  refine ⟨rfl, by decide, ?_⟩
  rw [claim_C2_bodyArmor docLightAfterMedium (mkDerived docLightAfterMedium bsOfDex16) rfl]
  decide

/-- Claim C3, counterexample: two equipped shields of base AC 2 and 3.
The claim predicts accumulation (AC 10 + 2 + 3 = 15); the code keeps
only the last shield and yields 13. -/
theorem claim_C3_counterexample :
    (resolve docTwoShields).map (fun o => o.ac) = some 13 ∧
    (resolve docTwoShields).map (fun o => o.ac) ≠ some 15 := by
  refine ⟨rfl, ?_⟩
  rw [show (resolve docTwoShields).map (fun o => o.ac) = some 13 from rfl]
  decide

/-- Claim C3 (amended): the shield branch ASSIGNS rather than adds:
after the inventory loop the shield bonus equals the base armorClass
plus granted armor-class bonuses of the LAST equipped shield alone
(0 when no shield is equipped); earlier shields contribute nothing. -/
theorem claim_C3_shieldOverwrite (inv : List Item) :
    (acFoldState inv).shieldBonus = specShieldBonus inv := by
  rw [acFoldState, acFold_shieldBonus, specShieldBonus]

theorem resolve_docShieldMod_ac (v f : Option Int) :
    (resolve (docShieldMod v f)).map (fun o => o.ac) =
      some (12 + acModValue
        { subType := some "armor-class", ty := some "bonus", value := v, fixedValue := f }) := by
  rw [show resolve (docShieldMod v f) =
      some (mkDerived (docShieldMod v f) (fun _ => none)) from rfl]
  show some ((mkDerived (docShieldMod v f) (fun _ => none)).ac) = _
  have hac : (mkDerived (docShieldMod v f) (fun _ => none)).ac =
      (10 : Int) + 0 +
        (2 + (0 + acModValue
          { subType := some "armor-class", ty := some "bonus", value := v, fixedValue := f })) +
        0 := rfl
  rw [hac]
  have : (10 : Int) + 0 +
      (2 + (0 + acModValue
        { subType := some "armor-class", ty := some "bonus", value := v, fixedValue := f })) + 0 =
      12 + acModValue
        { subType := some "armor-class", ty := some "bonus", value := v, fixedValue := f } := by
    omega
  rw [this]

/-- Claim C10: in the granted armor-class bonus of an equipped item, a
value of 0 (as well as null/absent) falls through to fixedValue, and a
nonzero value is used as-is. -/
theorem claim_C10_fixedValueFallback (f n : Int) (hn : n ≠ 0) :
    (resolve (docShieldMod none (some f))).map (fun o => o.ac) = some (12 + f) ∧
    (resolve (docShieldMod (some 0) (some f))).map (fun o => o.ac) = some (12 + f) ∧
    (resolve (docShieldMod (some n) (some f))).map (fun o => o.ac) = some (12 + n) := by
  refine ⟨?_, ?_, ?_⟩
  · rw [resolve_docShieldMod_ac]
    have hv : acModValue
        { subType := some "armor-class", ty := some "bonus",
          value := none, fixedValue := some f } = f := by
      by_cases hf : f = 0 <;> simp [acModValue, hf]
    rw [hv]
  · rw [resolve_docShieldMod_ac]
    have hv : acModValue
        { subType := some "armor-class", ty := some "bonus",
          value := some 0, fixedValue := some f } = f := by
      by_cases hf : f = 0 <;> simp [acModValue, hf]
    rw [hv]
  · rw [resolve_docShieldMod_ac]
    have hv : acModValue
        { subType := some "armor-class", ty := some "bonus",
          value := some n, fixedValue := some f } = n := by
      simp [acModValue, hn]
    rw [hv]

/-- Claim C10 witness: fixedValue 5 with value null/0 gives AC 17;
value 3 overrides and gives AC 15. -/
theorem claim_C10_fixedValueFallback_witness :
    ((3 : Int) ≠ 0) ∧
    (resolve (docShieldMod none (some 5))).map (fun o => o.ac) = some 17 ∧
    (resolve (docShieldMod (some 0) (some 5))).map (fun o => o.ac) = some 17 ∧
    (resolve (docShieldMod (some 3) (some 5))).map (fun o => o.ac) = some 15 := by
  have h := claim_C10_fixedValueFallback 5 3 (by decide)
  exact ⟨by decide, h.1, h.2.1, h.2.2⟩
